import Mathlib

/-!
Shallow embedding of `src/sales_2.py` (class `SalesPerformanceDashboard`).

The program extracts a flat sales table from a relational store (the SQL
join itself is executed by the external SQLite engine; we model the result
of the query as a list of raw rows), derives `month` and `total_sale_value`,
computes KPIs, two grouped aggregates (by region name, by customer segment),
and exports the aggregates.

Modelling decisions, each tied to a pandas/Python behaviour of the source:
* decimal / float columns are `Rat`; integer columns are `Nat`.
* pandas `mean` of an empty series is `NaN`, a float value that is
  returned, not raised; we model floats that may be NaN by `PFloat`.
* pandas `Series.sum` of an empty series is `0`.
* `groupby` is called with its default `sort=True`, so group keys appear
  in ascending order; we model this by sorting the deduplicated key list.
* `Series.idxmax` on an empty series raises
  `ValueError: attempt to get argmax of an empty sequence`; on a non-empty
  series it returns the index label of the first occurrence of the maximum.
  We model it with `Except String`.
* `Series.nunique` counts distinct values.
-/

/-- A pandas float cell: either NaN or a rational value. -/
inductive PFloat where
  | nan : PFloat
  | val : Rat → PFloat
deriving DecidableEq, Repr

/-- One row of the SQL query result in `extract_data`: the twelve selected
columns, before the pandas feature engineering.  `sale_date` is modelled as
(year, month, day). -/
structure RawRow where
  sale_id : Nat
  product_name : String
  category : String
  region_name : String
  country : String
  sale_date : Nat × Nat × Nat
  quantity : Nat
  unit_price : Rat
  total_revenue : Rat
  customer_segment : String
  employee_id : Nat
  sales_rep_name : String
deriving DecidableEq, Repr

/-- One row of the flat table `self.data` after `extract_data` has added the
derived columns `month` and `total_sale_value`. -/
structure Row where
  sale_id : Nat
  product_name : String
  category : String
  region_name : String
  country : String
  sale_date : Nat × Nat × Nat
  quantity : Nat
  unit_price : Rat
  total_revenue : Rat
  customer_segment : String
  employee_id : Nat
  sales_rep_name : String
  month : Nat × Nat
  total_sale_value : Rat
deriving DecidableEq, Repr

/-- `extract_data`: the feature-engineering part of the method — pandas date
parsing, `month` as the calendar-month truncation of the sale date, and
`total_sale_value = quantity * unit_price`.  The SQL join has already been
evaluated by the external store and its result is the input list. -/
def extract_data (raw : List RawRow) : List Row :=
  raw.map (fun r =>
    { sale_id := r.sale_id
      product_name := r.product_name
      category := r.category
      region_name := r.region_name
      country := r.country
      sale_date := r.sale_date
      quantity := r.quantity
      unit_price := r.unit_price
      total_revenue := r.total_revenue
      customer_segment := r.customer_segment
      employee_id := r.employee_id
      sales_rep_name := r.sales_rep_name
      month := (r.sale_date.1, r.sale_date.2.1)
      total_sale_value := (r.quantity : Rat) * r.unit_price })

/-- pandas `Series.mean`: NaN on an empty series, otherwise sum / count. -/
def seriesMean (l : List Rat) : PFloat :=
  if l.length = 0 then .nan else .val (l.sum / (l.length : Rat))

/-- pandas `Series.nunique`: the number of distinct values. -/
def nunique (l : List String) : Nat :=
  l.dedup.length

/-- Code-point-wise comparison of two character lists: the lexicographic
order Python uses when pandas sorts string group keys. -/
def dataLe : List Char → List Char → Bool
  | [], _ => true
  | _ :: _, [] => false
  | a :: as, b :: bs => if a < b then true else if b < a then false else dataLe as bs

/-- Python string comparison `a <= b`: code-point lexicographic order on the
characters.  It agrees with Mathlib's `≤` on `String` (`strLe_iff` below). -/
def strLe (a b : String) : Bool := dataLe a.data b.data

/-- The ascending list of distinct group keys, as produced by
`DataFrame.groupby` with its default `sort=True`. -/
def sortedKeys (l : List String) : List String :=
  List.insertionSort (fun a b => strLe a b = true) l.dedup

/-- `data.groupby(key)[val].sum()`: one (key, group sum) pair per distinct
key, keys ascending. -/
def groupbySum (key : Row → String) (val : Row → Rat) (data : List Row) :
    List (String × Rat) :=
  (sortedKeys (data.map key)).map
    (fun k => (k, ((data.filter (fun r => key r = k)).map val).sum))

/-- The summed `total_sale_value` of the group of one region: the value the
code computes for that region in
`data.groupby('region_name')['total_sale_value'].sum()`. -/
def regionSum (data : List Row) (k : String) : Rat :=
  ((data.filter (fun r => r.region_name = k)).map Row.total_sale_value).sum

/-- Tail of pandas `Series.idxmax`: scan left to right, keeping the current
best and replacing it only on a strictly greater value, so the first
occurrence of the maximum wins. -/
def idxmaxAux : List (String × Rat) → String × Rat → String
  | [], best => best.1
  | p :: rest, best =>
      if best.2 < p.2 then idxmaxAux rest p else idxmaxAux rest best

/-- pandas `Series.idxmax`: raises on an empty series, otherwise returns the
index label of the first occurrence of the maximum value. -/
def idxmax (l : List (String × Rat)) : Except String String :=
  match l with
  | [] => .error "attempt to get argmax of an empty sequence"
  | p :: rest => .ok (idxmaxAux rest p)

/-- The KPI dictionary built by `calculate_kpis`. -/
structure Kpis where
  total_revenue : Rat
  total_sales_volume : Nat
  average_transaction_value : PFloat
  unique_customers : Nat
  top_performing_region : String
deriving DecidableEq, Repr

/-- `calculate_kpis`: the five-entry KPI dict.  Building the dict evaluates
`idxmax`, which raises on an empty table, so the whole method raises there;
every other entry is total (`sum` of empty is 0, `mean` of empty is NaN). -/
def calculate_kpis (data : List Row) : Except String Kpis :=
  match idxmax (groupbySum Row.region_name Row.total_sale_value data) with
  | .error e => .error e
  | .ok top =>
      .ok { total_revenue := (data.map Row.total_sale_value).sum
            total_sales_volume := (data.map Row.quantity).sum
            average_transaction_value := seriesMean (data.map Row.total_sale_value)
            unique_customers := nunique (data.map Row.customer_segment)
            top_performing_region := top }

/-- One output row of `regional_performance_analysis` (columns `Region`,
`Total Revenue`, `Average Sale`, `Total Units`, `Total Transactions`). -/
structure RegionalRow where
  region : String
  total_revenue : Rat
  average_sale : PFloat
  total_units : Nat
  total_transactions : Nat
deriving DecidableEq, Repr

/-- `regional_performance_analysis`: group the flat table by `region_name`
and aggregate sum/mean of `total_sale_value` and sum/count of `quantity`
(the chart rendering is a display side effect with no data output). -/
def regional_performance_analysis (data : List Row) : List RegionalRow :=
  (sortedKeys (data.map Row.region_name)).map (fun k =>
    let grp := data.filter (fun r => r.region_name = k)
    { region := k
      total_revenue := (grp.map Row.total_sale_value).sum
      average_sale := seriesMean (grp.map Row.total_sale_value)
      total_units := (grp.map Row.quantity).sum
      total_transactions := (grp.map Row.quantity).length })

/-- One output row of `customer_acquisition_analysis` (columns
`Customer Segment`, `Total Revenue`, `Average Sale`, `Total Transactions`). -/
structure CustomerRow where
  customer_segment : String
  total_revenue : Rat
  average_sale : PFloat
  total_transactions : Nat
deriving DecidableEq, Repr

/-- `customer_acquisition_analysis`: group the flat table by
`customer_segment` and aggregate sum/mean of `total_sale_value` and count of
`sale_id` (again, the chart is a display side effect). -/
def customer_acquisition_analysis (data : List Row) : List CustomerRow :=
  (sortedKeys (data.map Row.customer_segment)).map (fun k =>
    let grp := data.filter (fun r => r.customer_segment = k)
    { customer_segment := k
      total_revenue := (grp.map Row.total_sale_value).sum
      average_sale := seriesMean (grp.map Row.total_sale_value)
      total_transactions := (grp.map Row.sale_id).length })

/-- The observable pipeline stages, for the control-flow claims. -/
inductive Event where
  | extractData
  | calculateKpis
  | regionalAnalysis
  | customerAnalysis
  | exportCsv
deriving DecidableEq, Repr

/-- Invocation trace of one call to `regional_performance_analysis`. -/
def regional_performance_analysis_trace : List Event :=
  [Event.regionalAnalysis]

/-- Invocation trace of one call to `customer_acquisition_analysis`. -/
def customer_acquisition_analysis_trace : List Event :=
  [Event.customerAnalysis]

/-- Invocation trace of `export_insights`: it calls
`regional_performance_analysis()` and `customer_acquisition_analysis()`
itself to build the `insights` dict, then writes the CSV files. -/
def export_insights_trace : List Event :=
  regional_performance_analysis_trace ++ customer_acquisition_analysis_trace
    ++ [Event.exportCsv]

/-- Invocation trace of `main()`: extract, KPIs, the two analyses called
directly, then `export_insights` (which re-runs both analyses). -/
def main_trace : List Event :=
  [Event.extractData] ++ [Event.calculateKpis]
    ++ regional_performance_analysis_trace
    ++ customer_acquisition_analysis_trace
    ++ export_insights_trace

/-! ## Concrete tables used by the end-to-end scenario and the witnesses -/

/-- First scenario sale: region "East", quantity 2, unit price 10.0.  Its
stored `total_revenue` column is deliberately 19, disagreeing with
`quantity * unit_price = 20`. -/
def raw1 : RawRow :=
  { sale_id := 1, product_name := "Widget", category := "Tools",
    region_name := "East", country := "US", sale_date := (2024, 1, 10),
    quantity := 2, unit_price := 10, total_revenue := 19,
    customer_segment := "Consumer", employee_id := 11, sales_rep_name := "Ann" }

/-- Second scenario sale: region "East", quantity 1, unit price 5.0. -/
def raw2 : RawRow :=
  { sale_id := 2, product_name := "Gadget", category := "Tools",
    region_name := "East", country := "US", sale_date := (2024, 2, 3),
    quantity := 1, unit_price := 5, total_revenue := 5,
    customer_segment := "Consumer", employee_id := 11, sales_rep_name := "Ann" }

/-- Third scenario sale: region "West", quantity 3, unit price 20.0. -/
def raw3 : RawRow :=
  { sale_id := 3, product_name := "Widget", category := "Tools",
    region_name := "West", country := "US", sale_date := (2024, 1, 20),
    quantity := 3, unit_price := 20, total_revenue := 60,
    customer_segment := "Corporate", employee_id := 12, sales_rep_name := "Bob" }

/-- The three-row query result of the end-to-end scenario. -/
def demoRaw : List RawRow := [raw1, raw2, raw3]

/-- The flat table extracted from the scenario rows. -/
def demoTable : List Row := extract_data demoRaw

/-- The same flat table with its first two rows swapped. -/
def demoTablePerm : List Row := extract_data [raw2, raw1, raw3]

/-- The KPI set `calculate_kpis` produces for the scenario table. -/
def demoKpis : Kpis :=
  { total_revenue := 85, total_sales_volume := 6,
    average_transaction_value := .val (85 / 3), unique_customers := 2,
    top_performing_region := "West" }

/-- The flat-table form of `raw1`, with the derived fields written out. -/
def demoRow1 : Row :=
  { sale_id := 1, product_name := "Widget", category := "Tools",
    region_name := "East", country := "US", sale_date := (2024, 1, 10),
    quantity := 2, unit_price := 10, total_revenue := 19,
    customer_segment := "Consumer", employee_id := 11, sales_rep_name := "Ann",
    month := (2024, 1), total_sale_value := 20 }

/-- A sale in region "Brim", sale value 10, for the tie-break scenario. -/
def rawTieB : RawRow :=
  { sale_id := 4, product_name := "Widget", category := "Tools",
    region_name := "Brim", country := "US", sale_date := (2024, 3, 1),
    quantity := 1, unit_price := 10, total_revenue := 10,
    customer_segment := "Consumer", employee_id := 11, sales_rep_name := "Ann" }

/-- A sale in region "Alto", also sale value 10: the two regions tie. -/
def rawTieA : RawRow :=
  { sale_id := 5, product_name := "Widget", category := "Tools",
    region_name := "Alto", country := "US", sale_date := (2024, 3, 2),
    quantity := 2, unit_price := 5, total_revenue := 10,
    customer_segment := "Corporate", employee_id := 12, sales_rep_name := "Bob" }

/-- A two-row flat table whose two regions have equal summed sale value. -/
def tieTable : List Row := extract_data [rawTieB, rawTieA]


/-! ## Order bridge: Python string comparison vs Mathlib's `String` order -/

theorem dataLe_iff (as : List Char) : ∀ bs : List Char,
    dataLe as bs = true ↔ ¬ List.Lex (· < ·) bs as := by
  induction as with
  | nil =>
      intro bs
      simp [dataLe, List.Lex.not_nil_right]
  | cons a as ih =>
      intro bs
      cases bs with
      | nil =>
          simp [dataLe]
          exact List.Lex.nil
      | cons b bs =>
          by_cases hab : a < b
          · simp only [dataLe, if_pos hab, true_iff]
            intro h
            cases h with
            | rel h' => exact absurd hab (asymm h')
            | cons h' => exact absurd hab (lt_irrefl _)
          · by_cases hba : b < a
            · simp only [dataLe, if_neg hab, if_pos hba, Bool.false_eq_true,
                false_iff, not_not]
              exact List.Lex.rel hba
            · have hEq : a = b := le_antisymm (le_of_not_lt hba) (le_of_not_lt hab)
              subst hEq
              simp only [dataLe, if_neg hab, if_neg hba]
              rw [ih bs]
              constructor
              · intro h hc
                cases hc with
                | rel h' => exact absurd h' (lt_irrefl _)
                | cons h' => exact h h'
              · intro h hc
                exact h (List.Lex.cons hc)

theorem strLe_iff (a b : String) : strLe a b = true ↔ a ≤ b := by
  rw [String.le_iff_toList_le, ← not_lt]
  show dataLe a.data b.data = true ↔ _
  rw [dataLe_iff]
  exact not_congr Iff.rfl

instance : IsTotal String (fun a b => strLe a b = true) := by
  constructor
  intro a b
  rcases le_total a b with h | h
  · exact Or.inl ((strLe_iff a b).mpr h)
  · exact Or.inr ((strLe_iff b a).mpr h)

instance : IsTrans String (fun a b => strLe a b = true) := by
  constructor
  intro a b c hab hbc
  exact (strLe_iff a c).mpr (le_trans ((strLe_iff a b).mp hab) ((strLe_iff b c).mp hbc))

instance : IsAntisymm String (fun a b => strLe a b = true) := by
  constructor
  intro a b hab hba
  exact le_antisymm ((strLe_iff a b).mp hab) ((strLe_iff b a).mp hba)

/-! ## Properties of the sorted group-key list -/

theorem sortedKeys_nodup (l : List String) : (sortedKeys l).Nodup :=
  ((List.perm_insertionSort _ l.dedup).nodup_iff).mpr l.nodup_dedup

theorem mem_sortedKeys {l : List String} {k : String} :
    k ∈ sortedKeys l ↔ k ∈ l := by
  unfold sortedKeys
  rw [List.mem_insertionSort, List.mem_dedup]

theorem sortedKeys_sorted (l : List String) :
    List.Sorted (fun a b => strLe a b = true) (sortedKeys l) :=
  List.sorted_insertionSort _ l.dedup

theorem sortedKeys_sorted_le (l : List String) :
    List.Sorted (· ≤ ·) (sortedKeys l) :=
  (sortedKeys_sorted l).imp (fun h => (strLe_iff _ _).mp h)

theorem sortedKeys_length (l : List String) :
    (sortedKeys l).length = l.dedup.length :=
  List.length_insertionSort _ _

theorem sortedKeys_perm_invariant {l l' : List String} (h : l.Perm l') :
    sortedKeys l = sortedKeys l' := by
  apply List.eq_of_perm_of_sorted
    ((List.perm_insertionSort _ l.dedup).trans
      (h.dedup.trans (List.perm_insertionSort _ l'.dedup).symm))
    (sortedKeys_sorted l) (sortedKeys_sorted l')

/-! ## Properties of `idxmax` -/

theorem idxmaxAux_of_le (ps : List (String × Rat)) :
    ∀ best : String × Rat, (∀ p ∈ ps, p.2 ≤ best.2) → idxmaxAux ps best = best.1 := by
  induction ps with
  | nil => intro best _; rfl
  | cons p rest ih =>
      intro best h
      have hp : ¬ best.2 < p.2 := not_lt.mpr (h p (List.mem_cons_self p rest))
      simp only [idxmaxAux, if_neg hp]
      exact ih best (fun q hq => h q (List.mem_cons_of_mem p hq))

theorem idxmaxAux_first (v₀ : Rat) (k₀ : String) (pre : List (String × Rat)) :
    ∀ (post : List (String × Rat)) (best : String × Rat), best.2 < v₀ →
    (∀ p ∈ pre, p.2 < v₀) → (∀ p ∈ post, p.2 ≤ v₀) →
    idxmaxAux (pre ++ (k₀, v₀) :: post) best = k₀ := by
  induction pre with
  | nil =>
      intro post best hb _ hpost
      simp only [List.nil_append, idxmaxAux, if_pos hb]
      exact idxmaxAux_of_le post (k₀, v₀) hpost
  | cons p pre ih =>
      intro post best hb hpre hpost
      have hp : p.2 < v₀ := hpre p (List.mem_cons_self p pre)
      by_cases h : best.2 < p.2
      · simp only [List.cons_append, idxmaxAux, if_pos h]
        exact ih post p hp (fun q hq => hpre q (List.mem_cons_of_mem p hq)) hpost
      · simp only [List.cons_append, idxmaxAux, if_neg h]
        exact ih post best hb (fun q hq => hpre q (List.mem_cons_of_mem p hq)) hpost

theorem idxmax_of_first_max (pre post : List (String × Rat)) (k₀ : String) (v₀ : Rat)
    (hpre : ∀ p ∈ pre, p.2 < v₀) (hpost : ∀ p ∈ post, p.2 ≤ v₀) :
    idxmax (pre ++ (k₀, v₀) :: post) = .ok k₀ := by
  cases pre with
  | nil =>
      simp only [List.nil_append, idxmax]
      exact congrArg Except.ok (idxmaxAux_of_le post (k₀, v₀) hpost)
  | cons q pre =>
      simp only [List.cons_append, idxmax]
      refine congrArg Except.ok ?_
      exact idxmaxAux_first v₀ k₀ pre post q (hpre q (List.mem_cons_self q pre))
        (fun p hp => hpre p (List.mem_cons_of_mem q hp)) hpost

/-! ## Partition property of grouped sums -/

theorem sum_map_zero {M : Type} [AddCommMonoid M] (keys : List String) :
    (keys.map (fun _ => (0 : M))).sum = 0 := by
  induction keys with
  | nil => rfl
  | cons a keys ih => simp [ih]

theorem sum_map_add {M : Type} [AddCommMonoid M] (f g : String → M) :
    ∀ keys : List String,
    (keys.map (fun k => f k + g k)).sum = (keys.map f).sum + (keys.map g).sum := by
  intro keys
  induction keys with
  | nil => simp
  | cons a keys ih =>
      simp only [List.map_cons, List.sum_cons, ih]
      abel

theorem sum_map_ite_zero {M : Type} [AddCommMonoid M] (v : M) (a : String) :
    ∀ keys : List String, a ∉ keys →
    (keys.map (fun k => if a = k then v else 0)).sum = 0 := by
  intro keys
  induction keys with
  | nil => intro _; rfl
  | cons b keys ih =>
      intro hmem
      have hb : ¬ a = b := fun h => hmem (h ▸ List.mem_cons_self b keys)
      simp only [List.map_cons, List.sum_cons, if_neg hb, zero_add]
      exact ih (fun h => hmem (List.mem_cons_of_mem b h))

theorem sum_map_ite {M : Type} [AddCommMonoid M] (v : M) (a : String) :
    ∀ keys : List String, keys.Nodup → a ∈ keys →
    (keys.map (fun k => if a = k then v else 0)).sum = v := by
  intro keys
  induction keys with
  | nil => intro _ h; cases h
  | cons b keys ih =>
      intro hnd hmem
      rcases List.mem_cons.mp hmem with h | h
      · subst h
        simp only [List.map_cons, List.sum_cons, eq_self_iff_true, if_true]
        rw [sum_map_ite_zero v a keys (List.nodup_cons.mp hnd).1, add_zero]
      · have hb : ¬ a = b := by
          intro hEq
          subst hEq
          exact (List.nodup_cons.mp hnd).1 h
        simp only [List.map_cons, List.sum_cons, if_neg hb, zero_add]
        exact ih (List.nodup_cons.mp hnd).2 h

theorem sum_groups {M : Type} [AddCommMonoid M] (key : Row → String) (val : Row → M) :
    ∀ (t : List Row) (keys : List String), keys.Nodup → (∀ r ∈ t, key r ∈ keys) →
    (keys.map (fun k => ((t.filter (fun r => key r = k)).map val).sum)).sum
      = (t.map val).sum := by
  intro t
  induction t with
  | nil =>
      intro keys _ _
      simp [sum_map_zero]
  | cons r t ih =>
      intro keys hnd hmem
      have step :
          (keys.map (fun k => (((r :: t).filter (fun x => key x = k)).map val).sum))
            = keys.map (fun k => (if key r = k then val r else 0)
                + ((t.filter (fun x => key x = k)).map val).sum) := by
        apply List.map_congr_left
        intro k _
        by_cases h : key r = k
        · simp [List.filter_cons, h]
        · simp [List.filter_cons, h]
      rw [step, sum_map_add, sum_map_ite (val r) (key r) keys hnd
        (hmem r (List.mem_cons_self r t)),
        ih keys hnd (fun x hx => hmem x (List.mem_cons_of_mem r hx))]
      simp

/-! ## Permutation invariance of the aggregations -/

theorem seriesMean_perm {l l' : List Rat} (h : l.Perm l') :
    seriesMean l = seriesMean l' := by
  unfold seriesMean
  rw [h.length_eq, h.sum_eq]

theorem groupbySum_perm (key : Row → String) (val : Row → Rat) {t u : List Row}
    (h : t.Perm u) : groupbySum key val t = groupbySum key val u := by
  unfold groupbySum
  rw [← sortedKeys_perm_invariant (h.map key)]
  apply List.map_congr_left
  intro k _
  exact congrArg (Prod.mk k) ((h.filter _).map val).sum_eq

theorem calculate_kpis_perm {t u : List Row} (h : t.Perm u) :
    calculate_kpis t = calculate_kpis u := by
  unfold calculate_kpis
  rw [groupbySum_perm Row.region_name Row.total_sale_value h]
  cases idxmax (groupbySum Row.region_name Row.total_sale_value u) with
  | error e => rfl
  | ok top =>
      have h1 := ((h.map Row.total_sale_value)).sum_eq
      have h2 := ((h.map Row.quantity)).sum_eq
      have h3 := seriesMean_perm (h.map Row.total_sale_value)
      have h4 : nunique (t.map Row.customer_segment)
          = nunique (u.map Row.customer_segment) := by
        unfold nunique
        exact ((h.map Row.customer_segment).dedup).length_eq
      simp [h1, h2, h3, h4]

theorem regional_performance_analysis_perm {t u : List Row} (h : t.Perm u) :
    regional_performance_analysis t = regional_performance_analysis u := by
  unfold regional_performance_analysis
  rw [← sortedKeys_perm_invariant (h.map Row.region_name)]
  apply List.map_congr_left
  intro k _
  have hf : (t.filter (fun r => r.region_name = k)).Perm
      (u.filter (fun r => r.region_name = k)) := h.filter _
  simp only []
  rw [((hf.map Row.total_sale_value)).sum_eq, seriesMean_perm (hf.map Row.total_sale_value),
    ((hf.map Row.quantity)).sum_eq]
  have hlen : ((t.filter (fun r => r.region_name = k)).map Row.quantity).length
      = ((u.filter (fun r => r.region_name = k)).map Row.quantity).length :=
    (hf.map Row.quantity).length_eq
  rw [hlen]

theorem customer_acquisition_analysis_perm {t u : List Row} (h : t.Perm u) :
    customer_acquisition_analysis t = customer_acquisition_analysis u := by
  unfold customer_acquisition_analysis
  rw [← sortedKeys_perm_invariant (h.map Row.customer_segment)]
  apply List.map_congr_left
  intro k _
  have hf : (t.filter (fun r => r.customer_segment = k)).Perm
      (u.filter (fun r => r.customer_segment = k)) := h.filter _
  simp only []
  rw [((hf.map Row.total_sale_value)).sum_eq, seriesMean_perm (hf.map Row.total_sale_value)]
  have hlen : ((t.filter (fun r => r.customer_segment = k)).map Row.sale_id).length
      = ((u.filter (fun r => r.customer_segment = k)).map Row.sale_id).length :=
    (hf.map Row.sale_id).length_eq
  rw [hlen]

/-! ## The key columns of the two analysis tables -/

theorem regional_keys (t : List Row) :
    (regional_performance_analysis t).map RegionalRow.region
      = sortedKeys (t.map Row.region_name) := by
  unfold regional_performance_analysis
  rw [List.map_map]
  exact (List.map_congr_left (fun k _ => rfl)).trans (List.map_id _)

theorem customer_keys (t : List Row) :
    (customer_acquisition_analysis t).map CustomerRow.customer_segment
      = sortedKeys (t.map Row.customer_segment) := by
  unfold customer_acquisition_analysis
  rw [List.map_map]
  exact (List.map_congr_left (fun k _ => rfl)).trans (List.map_id _)

/-! ## The top-performing region returned by `calculate_kpis` -/

theorem groupbySum_regionSum (t : List Row) :
    groupbySum Row.region_name Row.total_sale_value t
      = (sortedKeys (t.map Row.region_name)).map (fun k => (k, regionSum t k)) := rfl

theorem calculate_kpis_top (t : List Row) (k₀ : String)
    (hmem : k₀ ∈ t.map Row.region_name)
    (hmax : ∀ k ∈ t.map Row.region_name, regionSum t k ≤ regionSum t k₀)
    (hfirst : ∀ k ∈ t.map Row.region_name, regionSum t k = regionSum t k₀ → k₀ ≤ k) :
    ∃ kp, calculate_kpis t = .ok kp ∧ kp.top_performing_region = k₀ := by
  have hk : k₀ ∈ sortedKeys (t.map Row.region_name) := mem_sortedKeys.mpr hmem
  obtain ⟨ks₁, ks₂, hsplit⟩ := List.append_of_mem hk
  have hnd : (ks₁ ++ k₀ :: ks₂).Nodup := hsplit ▸ sortedKeys_nodup (t.map Row.region_name)
  have hsorted : List.Sorted (fun a b => strLe a b = true) (ks₁ ++ k₀ :: ks₂) :=
    hsplit ▸ sortedKeys_sorted (t.map Row.region_name)
  have hks₁lt : ∀ k ∈ ks₁, k < k₀ := by
    intro k hkk
    have hle : strLe k k₀ = true :=
      ((List.pairwise_append.mp hsorted).2.2 k hkk k₀ (List.mem_cons_self k₀ ks₂))
    have hne : k ≠ k₀ := by
      intro hEq
      have := (List.disjoint_of_nodup_append hnd) hkk
      exact this (hEq ▸ List.mem_cons_self k₀ ks₂)
    exact lt_of_le_of_ne ((strLe_iff k k₀).mp hle) hne
  have hmemt : ∀ k, k ∈ ks₁ ∨ k ∈ ks₂ → k ∈ t.map Row.region_name := by
    intro k hk'
    apply mem_sortedKeys.mp
    rw [hsplit]
    rcases hk' with h | h
    · exact List.mem_append_left _ h
    · exact List.mem_append_right _ (List.mem_cons_of_mem k₀ h)
  have hidx : idxmax (groupbySum Row.region_name Row.total_sale_value t) = .ok k₀ := by
    rw [groupbySum_regionSum, hsplit, List.map_append, List.map_cons]
    apply idxmax_of_first_max
    · intro p hp
      obtain ⟨k, hkk, hpk⟩ := List.mem_map.mp hp
      subst hpk
      have hle := hmax k (hmemt k (Or.inl hkk))
      rcases lt_or_eq_of_le hle with h | h
      · exact h
      · exact absurd (hfirst k (hmemt k (Or.inl hkk)) h) (not_le.mpr (hks₁lt k hkk))
    · intro p hp
      obtain ⟨k, hkk, hpk⟩ := List.mem_map.mp hp
      subst hpk
      exact hmax k (hmemt k (Or.inr hkk))
  refine ⟨{ total_revenue := (t.map Row.total_sale_value).sum
            total_sales_volume := (t.map Row.quantity).sum
            average_transaction_value := seriesMean (t.map Row.total_sale_value)
            unique_customers := nunique (t.map Row.customer_segment)
            top_performing_region := k₀ }, ?_, rfl⟩
  unfold calculate_kpis
  rw [hidx]

/-! ## Evaluation of the concrete tables -/

theorem demo_kpis_eval : calculate_kpis demoTable = .ok demoKpis := by
  norm_num +decide [demoTable, demoRaw, raw1, raw2, raw3, extract_data, calculate_kpis,
    demoKpis, groupbySum, sortedKeys, idxmax, idxmaxAux, seriesMean, nunique,
    List.insertionSort, List.orderedInsert, List.filter_cons,
    List.dedup_nil, List.dedup_cons_of_mem, List.dedup_cons_of_not_mem]

theorem demo_regional_eval : regional_performance_analysis demoTable =
    [ { region := "East", total_revenue := 25, average_sale := .val 12.5,
        total_units := 3, total_transactions := 2 },
      { region := "West", total_revenue := 60, average_sale := .val 60,
        total_units := 3, total_transactions := 1 } ] := by
  norm_num +decide [demoTable, demoRaw, raw1, raw2, raw3, extract_data,
    regional_performance_analysis, sortedKeys, seriesMean,
    List.insertionSort, List.orderedInsert, List.filter_cons,
    List.dedup_nil, List.dedup_cons_of_mem, List.dedup_cons_of_not_mem]

theorem demoRow1_mem : demoRow1 ∈ extract_data demoRaw := by
  norm_num +decide [demoRow1, extract_data, demoRaw, raw1, raw2, raw3]

theorem demo_perm : demoTable.Perm demoTablePerm := by
  show (extract_data [raw1, raw2, raw3]).Perm (extract_data [raw2, raw1, raw3])
  simp only [extract_data, List.map]
  exact List.Perm.swap _ _ _

theorem demo_top_mem : "West" ∈ demoTable.map Row.region_name := by
  simp +decide [demoTable, demoRaw, extract_data, raw1, raw2, raw3]

theorem demo_top_uniq : ∀ k ∈ demoTable.map Row.region_name, k ≠ "West" →
    regionSum demoTable k < regionSum demoTable "West" := by
  intro k hk hne
  have hcases : k = "East" ∨ k = "West" := by
    revert hk
    simp +decide [demoTable, demoRaw, extract_data, raw1, raw2, raw3]
  rcases hcases with h | h
  · subst h
    norm_num +decide [demoTable, demoRaw, extract_data, raw1, raw2, raw3,
      regionSum, List.filter_cons]
  · exact absurd h hne

theorem tie_regionSum_A : regionSum tieTable "Alto" = 10 := by
  norm_num +decide [tieTable, rawTieA, rawTieB, extract_data, regionSum, List.filter_cons]

theorem tie_regionSum_B : regionSum tieTable "Brim" = 10 := by
  norm_num +decide [tieTable, rawTieA, rawTieB, extract_data, regionSum, List.filter_cons]

theorem tie_mem : "Alto" ∈ tieTable.map Row.region_name := by
  simp +decide [tieTable, rawTieA, rawTieB, extract_data]

theorem tie_members : ∀ k ∈ tieTable.map Row.region_name, k = "Brim" ∨ k = "Alto" := by
  simp +decide [tieTable, rawTieA, rawTieB, extract_data]

theorem tie_max : ∀ k ∈ tieTable.map Row.region_name,
    regionSum tieTable k ≤ regionSum tieTable "Alto" := by
  intro k hk
  rcases tie_members k hk with h | h <;> subst h <;>
    simp [tie_regionSum_A, tie_regionSum_B]

theorem tie_exists : ∃ k ∈ tieTable.map Row.region_name,
    k ≠ "Alto" ∧ regionSum tieTable k = regionSum tieTable "Alto" := by
  refine ⟨"Brim", ?_, by decide, by rw [tie_regionSum_A, tie_regionSum_B]⟩
  simp +decide [tieTable, rawTieA, rawTieB, extract_data]

theorem tie_lex : ∀ k ∈ tieTable.map Row.region_name,
    regionSum tieTable k = regionSum tieTable "Alto" → "Alto" ≤ k := by
  intro k hk _
  rcases tie_members k hk with h | h <;> subst h
  · exact (strLe_iff "Alto" "Brim").mp (by decide)
  · exact le_refl _

/-! ## The claims -/

/-- C1: for every flat table, the KPI set returned by `calculate_kpis` has
`total_revenue` equal to the sum of `total_sale_value` over all rows and
`total_sales_volume` equal to the sum of `quantity` over all rows. -/
theorem C1_kpi_total_sums (t : List Row) (k : Kpis)
    (h : calculate_kpis t = .ok k) :
    k.total_revenue = (t.map Row.total_sale_value).sum ∧
    k.total_sales_volume = (t.map Row.quantity).sum := by
  unfold calculate_kpis at h
  cases hi : idxmax (groupbySum Row.region_name Row.total_sale_value t) with
  | error e => rw [hi] at h; cases h
  | ok top =>
      rw [hi] at h
      cases h
      exact ⟨rfl, rfl⟩

theorem C1_kpi_total_sums_witness :
    calculate_kpis demoTable = .ok demoKpis ∧
    demoKpis.total_revenue = (demoTable.map Row.total_sale_value).sum ∧
    demoKpis.total_sales_volume = (demoTable.map Row.quantity).sum :=
  ⟨demo_kpis_eval, C1_kpi_total_sums demoTable demoKpis demo_kpis_eval⟩

/-- C2: every row of the flat table produced by `extract_data` has
`total_sale_value` equal to `quantity * unit_price` exactly, whatever the
stored `total_revenue` column of that row holds. -/
theorem C2_total_sale_value_derived (raw : List RawRow) (r : Row)
    (h : r ∈ extract_data raw) :
    r.total_sale_value = (r.quantity : Rat) * r.unit_price := by
  obtain ⟨x, _, hx⟩ := List.mem_map.mp h
  subst hx
  rfl

theorem C2_total_sale_value_derived_witness :
    demoRow1 ∈ extract_data demoRaw ∧
    demoRow1.total_sale_value = (demoRow1.quantity : Rat) * demoRow1.unit_price ∧
    demoRow1.total_revenue ≠ demoRow1.total_sale_value :=
  ⟨demoRow1_mem, C2_total_sale_value_derived demoRaw demoRow1 demoRow1_mem,
    by norm_num [demoRow1]⟩

/-- C3: for every flat table in which the region `k₀` occurs and every other
region present has a strictly smaller summed `total_sale_value`,
`calculate_kpis` succeeds and returns `k₀` as `top_performing_region`. -/
theorem C3_top_region_unique_max (t : List Row) (k₀ : String)
    (hmem : k₀ ∈ t.map Row.region_name)
    (huniq : ∀ k ∈ t.map Row.region_name, k ≠ k₀ →
      regionSum t k < regionSum t k₀) :
    ∃ kp, calculate_kpis t = .ok kp ∧ kp.top_performing_region = k₀ := by
  apply calculate_kpis_top t k₀ hmem
  · intro k hk
    by_cases h : k = k₀
    · subst h; exact le_refl _
    · exact le_of_lt (huniq k hk h)
  · intro k hk hEq
    by_cases h : k = k₀
    · subst h; exact le_refl _
    · exact absurd hEq (ne_of_lt (huniq k hk h))

theorem C3_top_region_unique_max_witness :
    ("West" ∈ demoTable.map Row.region_name ∧
      (∀ k ∈ demoTable.map Row.region_name, k ≠ "West" →
        regionSum demoTable k < regionSum demoTable "West")) ∧
    ∃ kp, calculate_kpis demoTable = .ok kp ∧ kp.top_performing_region = "West" :=
  ⟨⟨demo_top_mem, demo_top_uniq⟩,
    C3_top_region_unique_max demoTable "West" demo_top_mem demo_top_uniq⟩

/-- C4: for every flat table, each grouped aggregate has one output row per
distinct grouping-key value present in the input, and the summed columns
(total revenue in both analyses, total units in the regional one) add up
across the group rows to the corresponding ungrouped sum. -/
theorem C4_grouped_aggregate_partition (t : List Row) :
    (regional_performance_analysis t).length = (t.map Row.region_name).toFinset.card ∧
    (customer_acquisition_analysis t).length = (t.map Row.customer_segment).toFinset.card ∧
    ((regional_performance_analysis t).map RegionalRow.total_revenue).sum
      = (t.map Row.total_sale_value).sum ∧
    ((regional_performance_analysis t).map RegionalRow.total_units).sum
      = (t.map Row.quantity).sum ∧
    ((customer_acquisition_analysis t).map CustomerRow.total_revenue).sum
      = (t.map Row.total_sale_value).sum := by
  refine ⟨?_, ?_, ?_, ?_, ?_⟩
  · unfold regional_performance_analysis
    rw [List.length_map, sortedKeys_length, List.card_toFinset]
  · unfold customer_acquisition_analysis
    rw [List.length_map, sortedKeys_length, List.card_toFinset]
  · unfold regional_performance_analysis
    rw [List.map_map]
    exact sum_groups Row.region_name Row.total_sale_value t _
      (sortedKeys_nodup _)
      (fun r hr => mem_sortedKeys.mpr (List.mem_map_of_mem Row.region_name hr))
  · unfold regional_performance_analysis
    rw [List.map_map]
    exact sum_groups Row.region_name Row.quantity t _
      (sortedKeys_nodup _)
      (fun r hr => mem_sortedKeys.mpr (List.mem_map_of_mem Row.region_name hr))
  · unfold customer_acquisition_analysis
    rw [List.map_map]
    exact sum_groups Row.customer_segment Row.total_sale_value t _
      (sortedKeys_nodup _)
      (fun r hr => mem_sortedKeys.mpr (List.mem_map_of_mem Row.customer_segment hr))

/-- C5 counterexample: the claim says the KPI calculation raises a "no data"
error for the mean on an empty table.  In the code the mean is pandas
`Series.mean`, which returns the float NaN on an empty series — a value,
not an error (its embedding `seriesMean` is a total function) — and the
error the KPI calculation does raise on empty input is `idxmax`'s
low-level ValueError, not a dedicated "no data" error. -/
theorem C5_counterexample_mean_returns_nan :
    seriesMean (([] : List Row).map Row.total_sale_value) = PFloat.nan ∧
    calculate_kpis ([] : List Row)
      = .error "attempt to get argmax of an empty sequence" :=
  ⟨rfl, rfl⟩

/-- C5 (amended): on the empty flat table, the sum-based aggregates are zero
and `calculate_kpis` raises, but the raise comes from the arg-max
(`idxmax` over an empty series); the mean does not raise — it evaluates to
NaN. -/
theorem C5_empty_input_behaviour :
    extract_data [] = ([] : List Row) ∧
    (([] : List Row).map Row.total_sale_value).sum = 0 ∧
    (([] : List Row).map Row.quantity).sum = 0 ∧
    seriesMean (([] : List Row).map Row.total_sale_value) = PFloat.nan ∧
    idxmax (groupbySum Row.region_name Row.total_sale_value [])
      = .error "attempt to get argmax of an empty sequence" ∧
    calculate_kpis ([] : List Row)
      = .error "attempt to get argmax of an empty sequence" :=
  ⟨rfl, rfl, rfl, rfl, rfl, rfl⟩

/-- C6: on the three-row scenario (East 2×10.0, East 1×5.0, West 3×20.0) the
pipeline yields total_revenue 85, total_sales_volume 6,
top_performing_region "West", and the regional analysis yields exactly the
two rows East{25, 12.5, 3, 2} and West{60, 60, 3, 1}. -/
theorem C6_end_to_end_scenario :
    calculate_kpis demoTable = .ok demoKpis ∧
    demoKpis.total_revenue = 85 ∧
    demoKpis.total_sales_volume = 6 ∧
    demoKpis.top_performing_region = "West" ∧
    regional_performance_analysis demoTable =
      [ { region := "East", total_revenue := 25, average_sale := .val 12.5,
          total_units := 3, total_transactions := 2 },
        { region := "West", total_revenue := 60, average_sale := .val 60,
          total_units := 3, total_transactions := 1 } ] :=
  ⟨demo_kpis_eval, rfl, rfl, rfl, demo_regional_eval⟩

/-- C7: for every flat table, the KPI `unique_customers` equals the number
of distinct `customer_segment` values present in the table. -/
theorem C7_unique_customers_distinct_segments (t : List Row) (k : Kpis)
    (h : calculate_kpis t = .ok k) :
    k.unique_customers = (t.map Row.customer_segment).toFinset.card := by
  unfold calculate_kpis at h
  cases hi : idxmax (groupbySum Row.region_name Row.total_sale_value t) with
  | error e => rw [hi] at h; cases h
  | ok top =>
      rw [hi] at h
      cases h
      show nunique (t.map Row.customer_segment) = _
      rw [List.card_toFinset]
      rfl

theorem C7_unique_customers_distinct_segments_witness :
    calculate_kpis demoTable = .ok demoKpis ∧
    demoKpis.unique_customers = (demoTable.map Row.customer_segment).toFinset.card :=
  ⟨demo_kpis_eval,
    C7_unique_customers_distinct_segments demoTable demoKpis demo_kpis_eval⟩

/-- C8 counterexample: the claim says no component runs more than once per
pipeline run, but in `main` the regional analyzer runs twice — once called
directly and once again inside `export_insights`. -/
theorem C8_counterexample_analyzer_rerun :
    main_trace.count Event.regionalAnalysis = 2 ∧
    main_trace.count Event.regionalAnalysis ≠ 1 := by decide

/-- C8 (amended): per run of `main`, the extractor, the KPI calculator and
the CSV export each happen exactly once, while the regional and customer
analyzers each run twice (once from `main` directly, once more inside
`export_insights`), in the linear order extract, KPIs, regional, customer,
regional, customer, export. -/
theorem C8_pipeline_trace :
    main_trace = [Event.extractData, Event.calculateKpis, Event.regionalAnalysis,
      Event.customerAnalysis, Event.regionalAnalysis, Event.customerAnalysis,
      Event.exportCsv] ∧
    main_trace.count Event.extractData = 1 ∧
    main_trace.count Event.calculateKpis = 1 ∧
    main_trace.count Event.exportCsv = 1 ∧
    main_trace.count Event.regionalAnalysis = 2 ∧
    main_trace.count Event.customerAnalysis = 2 := by decide

/-- C9: both grouped aggregates list their output rows in ascending order of
the grouping key, and the whole output tables are unchanged under any
permutation of the input rows. -/
theorem C9_sorted_and_order_independent (t u : List Row) (h : t.Perm u) :
    List.Sorted (· ≤ ·) ((regional_performance_analysis t).map RegionalRow.region) ∧
    List.Sorted (· ≤ ·)
      ((customer_acquisition_analysis t).map CustomerRow.customer_segment) ∧
    regional_performance_analysis t = regional_performance_analysis u ∧
    customer_acquisition_analysis t = customer_acquisition_analysis u := by
  refine ⟨?_, ?_, regional_performance_analysis_perm h,
    customer_acquisition_analysis_perm h⟩
  · rw [regional_keys]
    exact sortedKeys_sorted_le _
  · rw [customer_keys]
    exact sortedKeys_sorted_le _

theorem C9_sorted_and_order_independent_witness :
    demoTable.Perm demoTablePerm ∧
    (List.Sorted (· ≤ ·) ((regional_performance_analysis demoTable).map RegionalRow.region) ∧
     List.Sorted (· ≤ ·)
       ((customer_acquisition_analysis demoTable).map CustomerRow.customer_segment) ∧
     regional_performance_analysis demoTable = regional_performance_analysis demoTablePerm ∧
     customer_acquisition_analysis demoTable = customer_acquisition_analysis demoTablePerm) :=
  ⟨demo_perm, C9_sorted_and_order_independent demoTable demoTablePerm demo_perm⟩

/-- C10: when two or more regions tie for the maximal summed
`total_sale_value`, `calculate_kpis` returns the lexicographically smallest
of the tied region names as `top_performing_region`. -/
theorem C10_tie_lex_smallest (t : List Row) (k₀ : String)
    (hmem : k₀ ∈ t.map Row.region_name)
    (hmax : ∀ k ∈ t.map Row.region_name, regionSum t k ≤ regionSum t k₀)
    (_htie : ∃ k ∈ t.map Row.region_name, k ≠ k₀ ∧ regionSum t k = regionSum t k₀)
    (hlex : ∀ k ∈ t.map Row.region_name, regionSum t k = regionSum t k₀ → k₀ ≤ k) :
    ∃ kp, calculate_kpis t = .ok kp ∧ kp.top_performing_region = k₀ :=
  calculate_kpis_top t k₀ hmem hmax hlex

theorem C10_tie_lex_smallest_witness :
    ("Alto" ∈ tieTable.map Row.region_name ∧
      (∀ k ∈ tieTable.map Row.region_name,
        regionSum tieTable k ≤ regionSum tieTable "Alto") ∧
      (∃ k ∈ tieTable.map Row.region_name,
        k ≠ "Alto" ∧ regionSum tieTable k = regionSum tieTable "Alto") ∧
      (∀ k ∈ tieTable.map Row.region_name,
        regionSum tieTable k = regionSum tieTable "Alto" → "Alto" ≤ k)) ∧
    ∃ kp, calculate_kpis tieTable = .ok kp ∧ kp.top_performing_region = "Alto" :=
  ⟨⟨tie_mem, tie_max, tie_exists, tie_lex⟩,
    C10_tie_lex_smallest tieTable "Alto" tie_mem tie_max tie_exists tie_lex⟩
